import Mathlib

/-!
Shallow embedding of the parsing core of `foam2py/helpers.py`
(repository `StasF1/foamio`): header scanning, tuple-column expansion,
`.dat` row decimation, column counting, `.xy` column-name inference and
directory merging.  Pure fragments of the Python code become Lean
functions; Python exceptions become `Except` errors.
-/

namespace Foam2py

/-- Failure modes.  The first four are failures the Python code actually
produces: `zeroDivision` is a `ZeroDivisionError` from `%` or `/` with a
zero divisor, `typeError` is the `TypeError` raised by `range()` applied to
a `float`, `valueErrorRagged` is the `ValueError` numpy raises when
`np.array` is given a ragged nested sequence, and `heterogeneousDirectory`
is the `ValueError(f'{filepath} is not valid')` raised at `helpers.py:100`
when the `.dat` files of a directory do not share a single file name.
The last three (`malformedHeader`, `nameInference`,
`inconsistentComponentCount`) are error kinds named by the specification
only; they appear nowhere in the source and are included so that claims
about them can be stated. -/
inductive Err
  | zeroDivision
  | typeError
  | valueErrorRagged
  | heterogeneousDirectory
  | malformedHeader
  | nameInference
  | inconsistentComponentCount
deriving DecidableEq

deriving instance DecidableEq for Except

/-- Python's `a % b` on integers: floored modulo, raising
`ZeroDivisionError` when `b = 0` (Lean's `Int.fmod` is Python's `%` for
`b ≠ 0`). -/
def pyMod (a b : Int) : Except Err Int :=
  if b = 0 then .error .zeroDivision else .ok (Int.fmod a b)

/-- `helpers.py:133-137`: choice of `pos`, the index of the first column
holding a field value.  `pos` starts at `0`; it becomes `1` when
`(columns_count - 1) % len(field_names[1:])` is zero, else `3` when
`columns_count > 3` and `(columns_count - 3) % len(field_names[3:])` is
zero.  Python evaluates each `%` before the test, so a zero divisor raises
`ZeroDivisionError` (short-circuit: the second `%` only runs when
`columns_count > 3`). -/
def infer_pos (tokens : List String) (cc : Int) : Except Err Nat :=
  match pyMod (cc - 1) ((tokens.drop 1).length : Int) with
  | .error e => .error e
  | .ok m1 =>
    if m1 = 0 then .ok 1
    else if 3 < cc then
      match pyMod (cc - 3) ((tokens.drop 3).length : Int) with
      | .error e => .error e
      | .ok m3 => if m3 = 0 then .ok 3 else .ok 0
    else .ok 0

/-- `helpers.py:113-123` (`field_components`).  The Python function
receives `components_count` either as the `int` `pos` (call at line 141,
`is_int = true`) or as the `float` produced by the true division at line
140 (`is_int = false`).  We carry the exact value as the fraction
`num / den` with `den > 0` at every call site; the comparisons `<= 1`,
`== 3` and `== 6` on that exact rational coincide with Python's float
comparisons for the magnitudes a file can produce.  `range(components
count)` succeeds only on an `int` argument; on any `float` — integral or
not — Python raises `TypeError`. -/
def field_components (field_name : String) (num den : Int) (is_int : Bool) :
    Except Err (List String) :=
  if num ≤ den then .ok [field_name]
  else if num = 3 * den then
    .ok (["x", "y", "z"].map (fun c => field_name ++ "." ++ c))
  else if num = 6 * den then
    .ok (["xx", "xy", "xz", "yy", "yz", "zz"].map (fun c => field_name ++ "." ++ c))
  else if is_int then
    .ok ((List.range (num / den).toNat).map (fun i => field_name ++ "." ++ toString i))
  else .error .typeError

/-- `helpers.py:142-143`: the loop `for field_name in field_names[pos:]:
names += field_components(field_name, components_count)`, with
`components_count = num / den` (a `float`, hence `is_int = false`). -/
def expand_fields (num den : Int) : List String → Except Err (List String)
  | [] => .ok []
  | t :: ts =>
    match field_components t num den false with
    | .error e => .error e
    | .ok head =>
      match expand_fields num den ts with
      | .error e => .error e
      | .ok tail => .ok (head ++ tail)

/-- `helpers.py:128-143`: column-name inference of `load_xy` over the
already split token list `field_names`.  Line 140 computes
`components_count = (columns_count - pos) / len(field_names[pos:])` by
true division (a `float`; `ZeroDivisionError` on a zero divisor); line
141 seeds `names` with `field_components(field_names[0], pos)` (`pos` is
an `int`); lines 142-143 append the expansion of every token from `pos`
on. -/
def infer_names (tokens : List String) (cc : Int) : Except Err (List String) :=
  match infer_pos tokens cc with
  | .error e => .error e
  | .ok pos =>
    if ((tokens.drop pos).length : Int) = 0 then .error .zeroDivision
    else
      match field_components (tokens.headD "") (pos : Int) 1 true with
      | .error e => .error e
      | .ok first =>
        match expand_fields (cc - (pos : Int)) ((tokens.drop pos).length : Int)
            (tokens.drop pos) with
        | .error e => .error e
        | .ok rest => .ok (first ++ rest)

/-- Python's `str.split(sep)` for a one-character separator, over the
character list: splitting never yields `[]` (splitting the empty string
gives `[""]`), and consecutive separators yield empty fields, exactly as
in Python. -/
def py_split_chars (sep : Char) : List Char → List Char → List (List Char)
  | [], acc => [acc.reverse]
  | c :: cs, acc =>
    if c = sep then acc.reverse :: py_split_chars sep cs []
    else py_split_chars sep cs (c :: acc)

/-- Python's `s.split(sep)` for a one-character separator. -/
def py_split (sep : Char) (s : String) : List String :=
  (py_split_chars sep s.data []).map List.asString

/-- `load_xy` name construction from the filename stem:
`field_names = filepath.stem.split('_')` (`helpers.py:128`). -/
def load_xy_names (stem : String) (cc : Int) : Except Err (List String) :=
  infer_names (py_split '_' stem) cc

example : load_xy_names "U" 4 = .error .zeroDivision := by decide
example : load_xy_names "line_U" 4 = .ok ["line", "U.x", "U.y", "U.z"] := by decide
example : load_xy_names "a_b_c_d_e" 6 = .error .typeError := by decide
example : infer_pos (py_split '_' "a_b_c_d_e") 6 = .ok 0 := by decide
example : py_split '_' "" = [""] := by decide
example : py_split '_' "a__b" = ["a", "", "b"] := by decide

/-- Python's `line.startswith(marker)`: the marker's characters are a
prefix of the line's. -/
def py_startswith (line marker : String) : Bool :=
  marker.data.isPrefixOf line.data

/-- `helpers.py:42-48` (`get_header_size`), body of the `for index, line in
enumerate(f)` loop starting at line index `index`: returns `index - 1` at
the first line not starting with the comment marker; falling off the end
of the file is Python's implicit `return None`, modelled as `none`. -/
def header_scan (comment : String) : Nat → List String → Option Int
  | _, [] => none
  | index, line :: rest =>
    if py_startswith line comment then header_scan comment (index + 1) rest
    else some ((index : Int) - 1)

/-- `helpers.py:42-48`: `get_header_size(filepath, comment='#')` over the
file's lines. -/
def get_header_size (file_lines : List String) : Option Int :=
  header_scan "#" 0 file_lines

example : get_header_size ["# a", "# b", "0\t1"] = some 1 := by decide
example : get_header_size ["# a", "# b"] = none := by decide
example : get_header_size [] = none := by decide
example : get_header_size ["0\t1", "2\t3"] = some (-1) := by decide

/-- `np.array(dat[key].to_list())` at `helpers.py:64` on a list of
per-cell float vectors: a rectangular nested list becomes a 2-D array;
a ragged one makes numpy raise `ValueError` (inhomogeneous shape).
Cell values are carried as exact rationals, standing for the parsed
floats. -/
def np_array_2d (cells : List (List ℚ)) : Except Err (List (List ℚ)) :=
  match cells with
  | [] => .ok []
  | c :: rest =>
    if rest.all (fun r => r.length = c.length) then .ok (c :: rest)
    else .error .valueErrorRagged

/-- `helpers.py:58-67`, the body of `unnest_columns` for one detected
tuple-valued column `key`: `cells` are the per-cell float vectors produced
by the parsing lambda at lines 58-61 (parenthesis stripping, whitespace
split, float conversion of every token — string parsing itself is not
modelled).  `field = np.array(...)`; for `component in
range(field.shape[-1])` a scalar column named `f'{key}.{component}'`
holding `field[:, component]` is inserted, in component order.  The result
is the ordered list of inserted `(name, column)` pairs. -/
def unnest_column (key : String) (cells : List (List ℚ)) :
    Except Err (List (String × List ℚ)) :=
  match np_array_2d cells with
  | .error e => .error e
  | .ok field =>
    .ok ((List.range (field.headD []).length).map (fun component =>
      (key ++ "." ++ toString component, field.map (fun row => row.getD component 0))))

example :
    unnest_column "f" [[1, 2], [3, 4]] =
      .ok [("f.0", [1, 3]), ("f.1", [2, 4])] := by decide
example : unnest_column "f" [[1], [1, 2]] = .error .valueErrorRagged := by decide

/-- `helpers.py:84-85`: the `skiprows` callable handed to `pd.read_csv` by
`load_dat`'s inner `load`.  For row index `n` (0-based over the file's
lines) it evaluates `n > header_pos and n % use_nth` when `use_nth` is set
and at least 2, and `None` (falsy: skip nothing) otherwise; pandas skips
the row exactly when the returned value is truthy, i.e. when
`n > header_pos` and `n % use_nth ≠ 0`. -/
def dat_skiprows (use_nth : Option Int) (header_pos : Int) (n : Nat) : Bool :=
  match use_nth with
  | none => false
  | some nth =>
    if 2 ≤ nth then
      if header_pos < (n : Int) ∧ (n : Int).fmod nth ≠ 0 then true else false
    else false

example : dat_skiprows (some 2) 1 2 = false := by decide
example : dat_skiprows (some 2) 1 3 = true := by decide
example : dat_skiprows none 1 3 = false := by decide

/-- Number of occurrences of character `c` in `s`: Python's `s.count(c)`
for a one-character argument. -/
def pyCountChar (s : String) (c : Char) : Nat :=
  (s.data.filter (fun x => x = c)).length

/-- `linecache.getline(filename, lineno)`: the 1-based `lineno`-th line of
the file, line terminator included, or `''` when `lineno` is out of
range.  A file is its list of lines, each line keeping its trailing
newline except possibly the last. -/
def getline (file_lines : List String) (line_no : Nat) : String :=
  if 1 ≤ line_no ∧ line_no ≤ file_lines.length then file_lines.getD (line_no - 1) ""
  else ""

/-- `helpers.py:27-33` (`count_columns`): `line.count(sep) +
line.count('\n')` for the line fetched by `linecache.getline`.  The
separator is modelled as one character (`'\t'` at the call site,
`helpers.py:130`). -/
def count_columns (file_lines : List String) (sep : Char) (line_no : Nat) : Nat :=
  pyCountChar (getline file_lines line_no) sep +
    pyCountChar (getline file_lines line_no) '\n'

example : count_columns ["a\tb\tc\n", "x\n"] '\t' 1 = 3 := by decide
example : count_columns ["a\tb"] '\t' 1 = 1 := by decide
example : count_columns ["a\tb\n"] '\t' 5 = 0 := by decide

/-- A filesystem path as its ordered list of components; `pathlib.Path`
objects compare by their component tuples. -/
abbrev FPath := List String

/-- `fp.name`: the last path component. -/
def path_name (p : FPath) : String := p.getLast?.getD ""

/-- Python string comparison: code-point lexicographic (this is
`String.lt`, phrased over the character lists so it evaluates). -/
def strLt (a b : String) : Bool :=
  if a.data < b.data then true else false

/-- Ascending `pathlib` path order: lexicographic over components,
components compared as Python strings. -/
def pathLe : FPath → FPath → Bool
  | [], _ => true
  | _ :: _, [] => false
  | a :: as, b :: bs => if strLt a b then true else if a = b then pathLe as bs else false

/-- `helpers.py:96-102`: the directory branch of `load_dat`.  `files`
pairs each discovered `.dat` path with the rows its independent `load`
produces.  If the set of file names is not a singleton the code raises
`ValueError(f'{filepath} is not valid')`; otherwise it concatenates the
per-file rows over the paths in sorted order (`pd.concat` over
`sorted(filepaths)`), keeping every row and its index value as is. -/
def load_dat_dir {α : Type} (files : List (FPath × List α)) : Except Err (List α) :=
  if (files.map (fun f => path_name f.1)).dedup.length = 1 then
    .ok (((List.insertionSort (fun f g => pathLe f.1 g.1 = true) files).map
      (fun f => f.2)).flatten)
  else .error .heterogeneousDirectory

example :
    load_dat_dir [(["100", "forces.dat"], [1, 2]), (["0", "forces.dat"], [3])] =
      .ok [3, 1, 2] := by decide
example :
    load_dat_dir [(["0", "forces.dat"], [1]), (["0", "moments.dat"], [2])] =
      (.error .heterogeneousDirectory : Except Err (List Nat)) := by decide
example : load_dat_dir ([] : List (FPath × List Nat)) = .error .heterogeneousDirectory := by
  decide

/-! ## Helper lemmas -/

lemma header_scan_none (comment : String) (ls : List String)
    (h : ∀ l ∈ ls, py_startswith l comment = true) :
    ∀ i, header_scan comment i ls = none := by
  induction ls with
  | nil => intro i; rfl
  | cons l rest ih =>
    intro i
    rw [header_scan, if_pos (h l (List.mem_cons_self l rest))]
    exact ih (fun x hx => h x (List.mem_cons_of_mem l hx)) (i + 1)

lemma header_scan_append (comment : String) (c : List String)
    (hc : ∀ l ∈ c, py_startswith l comment = true)
    (l₀ : String) (h₀ : py_startswith l₀ comment = false) (rest : List String) :
    ∀ i, header_scan comment i (c ++ l₀ :: rest) = some ((i : Int) + c.length - 1) := by
  induction c with
  | nil =>
    intro i
    rw [List.nil_append, header_scan, if_neg (by rw [h₀]; exact Bool.false_ne_true)]
    simp
  | cons x xs ih =>
    intro i
    rw [List.cons_append, header_scan, if_pos (hc x (List.mem_cons_self x xs))]
    rw [ih (fun y hy => hc y (List.mem_cons_of_mem x hy)) (i + 1)]
    congr 1
    rw [List.length_cons]
    push_cast
    ring

lemma getD_eq_getLast?_getD (c : List String) (hne : c ≠ []) :
    c.getD (c.length - 1) "" = c.getLast?.getD "" := by
  have hlt : c.length - 1 < c.length := by
    have : 0 < c.length := List.length_pos.mpr hne
    omega
  rw [List.getD_eq_getElem c "" hlt, List.getLast?_eq_getElem?,
    List.getElem?_eq_getElem hlt]
  rfl

lemma range_map_getD (l : List ℚ) :
    (List.range l.length).map (fun j => l.getD j 0) = l := by
  induction l with
  | nil => rfl
  | cons a t ih =>
    rw [List.length_cons, List.range_succ_eq_map, List.map_cons, List.map_map]
    have : ((fun j => List.getD (a :: t) j 0) ∘ Nat.succ) = fun j => t.getD j 0 := by
      funext j; rfl
    rw [this, ih]
    rfl

lemma pyCountChar_append (s t : String) (c : Char) :
    pyCountChar (s ++ t) c = pyCountChar s c + pyCountChar t c := by
  rw [pyCountChar, pyCountChar, pyCountChar, String.data_append, List.filter_append,
    List.length_append]

lemma pyCountChar_eq_zero (s : String) (c : Char) (h : c ∉ s.data) :
    pyCountChar s c = 0 := by
  rw [pyCountChar, List.length_eq_zero, List.filter_eq_nil_iff]
  intro a ha
  simp only [decide_eq_true_eq]
  exact fun hac => h (hac ▸ ha)

lemma pyMod_ok {a b m : Int} (h : pyMod a b = .ok m) : b ≠ 0 := by
  intro hb
  rw [pyMod, if_pos hb] at h
  cases h

lemma infer_pos_ok (tokens : List String) (cc : Int) (pos : Nat)
    (h : infer_pos tokens cc = .ok pos) :
    (pos = 0 ∨ pos = 1 ∨ pos = 3) ∧ tokens.drop pos ≠ [] := by
  rw [infer_pos] at h
  cases h1 : pyMod (cc - 1) ((tokens.drop 1).length : Int) with
  | error e => rw [h1] at h; cases h
  | ok m1 =>
    simp only [h1] at h
    have hd1 : tokens.drop 1 ≠ [] := by
      intro hnil
      exact pyMod_ok h1 (by rw [hnil]; rfl)
    have htokens : tokens ≠ [] := by
      intro hnil
      rw [hnil] at hd1
      exact hd1 rfl
    by_cases hm1 : m1 = 0
    · rw [if_pos hm1] at h
      cases h
      exact ⟨Or.inr (Or.inl rfl), hd1⟩
    · rw [if_neg hm1] at h
      by_cases hcc : 3 < cc
      · rw [if_pos hcc] at h
        cases h3 : pyMod (cc - 3) ((tokens.drop 3).length : Int) with
        | error e => rw [h3] at h; cases h
        | ok m3 =>
          simp only [h3] at h
          have hd3 : tokens.drop 3 ≠ [] := by
            intro hnil
            exact pyMod_ok h3 (by rw [hnil]; rfl)
          by_cases hm3 : m3 = 0
          · rw [if_pos hm3] at h
            cases h
            exact ⟨Or.inr (Or.inr rfl), hd3⟩
          · rw [if_neg hm3] at h
            cases h
            exact ⟨Or.inl rfl, by rw [List.drop_zero]; exact htokens⟩
      · rw [if_neg hcc] at h
        cases h
        exact ⟨Or.inl rfl, by rw [List.drop_zero]; exact htokens⟩

lemma expand_fields_le (num den : Int) (hle : num ≤ den) :
    ∀ l : List String, expand_fields num den l = .ok l := by
  intro l
  induction l with
  | nil => rfl
  | cons t ts ih =>
    rw [expand_fields, field_components, if_pos hle, ih]
    rfl

lemma field_components_err (t : String) (num den : Int) (hgt : ¬ num ≤ den)
    (h3 : num ≠ 3 * den) (h6 : num ≠ 6 * den) :
    field_components t num den false = .error .typeError := by
  rw [field_components, if_neg hgt, if_neg h3, if_neg h6]
  rfl

lemma expand_fields_gt (num den : Int) (hgt : ¬ num ≤ den) (h3 : num ≠ 3 * den)
    (h6 : num ≠ 6 * den) (t : String) (ts : List String) :
    expand_fields num den (t :: ts) = .error .typeError := by
  rw [expand_fields, field_components_err t num den hgt h3 h6]

lemma fc_first (s : String) (pos : Nat) (hpos : pos = 0 ∨ pos = 1 ∨ pos = 3) :
    ∃ f, field_components s (pos : Int) 1 true = .ok f ∧ pos ≤ f.length ∧
      1 ≤ f.length := by
  rcases hpos with h | h | h <;> subst h
  · exact ⟨[s], rfl, by simp, by simp⟩
  · exact ⟨[s], rfl, by simp, by simp⟩
  · exact ⟨[s ++ "." ++ "x", s ++ "." ++ "y", s ++ "." ++ "z"], rfl, by simp, by simp⟩

lemma infer_names_nondvd (tokens : List String) (cc : Int) (pos : Nat)
    (hp : infer_pos tokens cc = .ok pos)
    (hnd : ¬ (((tokens.drop pos).length : Int) ∣ (cc - (pos : Int)))) :
    infer_names tokens cc = .error .typeError ∨
    ∃ ns, infer_names tokens cc = .ok ns ∧ (ns.length : Int) ≠ cc := by
  obtain ⟨hpos, hne⟩ := infer_pos_ok tokens cc pos hp
  have hlen_pos : 0 < (tokens.drop pos).length := List.length_pos.mpr hne
  have hden0 : ¬ (((tokens.drop pos).length : Int) = 0) := by
    exact_mod_cast Nat.pos_iff_ne_zero.mp hlen_pos
  obtain ⟨f, hf, hfpos, hf1⟩ := fc_first (tokens.headD "") pos hpos
  by_cases hle : cc - (pos : Int) ≤ ((tokens.drop pos).length : Int)
  · right
    refine ⟨f ++ tokens.drop pos, ?_, ?_⟩
    · simp only [infer_names, hp, if_neg hden0, hf,
        expand_fields_le _ _ hle (tokens.drop pos)]
    · have hlt : cc - (pos : Int) < ((tokens.drop pos).length : Int) :=
        lt_of_le_of_ne hle (fun h => hnd ⟨1, by rw [mul_one]; exact h⟩)
      have hcast : ((pos : Nat) : Int) ≤ (f.length : Int) := by exact_mod_cast hfpos
      rw [List.length_append]
      push_cast
      omega
  · left
    have h3 : cc - (pos : Int) ≠ 3 * ((tokens.drop pos).length : Int) := fun h =>
      hnd ⟨3, by rw [h]; ring⟩
    have h6 : cc - (pos : Int) ≠ 6 * ((tokens.drop pos).length : Int) := fun h =>
      hnd ⟨6, by rw [h]; ring⟩
    obtain ⟨t, ts, hts⟩ : ∃ t ts, tokens.drop pos = t :: ts := by
      cases hcase : tokens.drop pos with
      | nil => exact absurd hcase hne
      | cons t ts => exact ⟨t, ts, rfl⟩
    have hexp : expand_fields (cc - (pos : Int)) ((tokens.drop pos).length : Int)
        (tokens.drop pos) = .error .typeError := by
      rw [hts] at hle h3 h6 ⊢
      exact expand_fields_gt _ _ hle h3 h6 t ts
    simp only [infer_names, hp, if_neg hden0, hf, hexp]

/-! ## Claims -/

/-- C3.  The claim says `load_dat` signals a `MalformedHeaderError` on a
file whose lines are all commented, on an empty file, and on a file whose
first line is already data.  It does not: `get_header_size` falls off the
loop and returns `None` in the first two cases and returns `-1` in the
third, raising nothing. -/
theorem get_header_size_no_error_cex :
    get_header_size ["# time\tvalue\n"] = none ∧
    get_header_size [] = none ∧
    get_header_size ["0\t1\n", "2\t3\n"] = some (-1) := by
  decide

/-- C3 amended: on a file whose every line starts with the comment marker
(in particular an empty file) `get_header_size` returns no boundary at
all (Python `None`), and on a file whose first line is not commented it
returns `-1`; no `MalformedHeaderError` is signalled. -/
theorem get_header_size_degenerate :
    (∀ ls : List String, (∀ l ∈ ls, py_startswith l "#" = true) →
      get_header_size ls = none) ∧
    (∀ (l : String) (ls : List String), py_startswith l "#" = false →
      get_header_size (l :: ls) = some (-1)) := by
  constructor
  · intro ls h
    exact header_scan_none "#" ls h 0
  · intro l ls h
    rw [get_header_size, header_scan, if_neg (by rw [h]; exact Bool.false_ne_true)]
    rfl

theorem get_header_size_degenerate_witness :
    get_header_size ["# a\n", "# b\n"] = none ∧
    get_header_size ["0\t1\n", "2\t3\n"] = some (-1) :=
  ⟨get_header_size_degenerate.1 ["# a\n", "# b\n"] (by decide),
    get_header_size_degenerate.2 "0\t1\n" ["2\t3\n"] (by decide)⟩

/-- C7.  For a `.dat` file made of a nonempty block of commented lines
followed by a non-comment line, the computed header boundary is the index
of the last commented line: boundary + 1 is the zero-based index of the
first non-comment line (3 leading comment lines give boundary 2), and the
line at the boundary is the last commented line, which `load` hands to the
CSV reader as the column-name row (`header=header_pos`,
`helpers.py:78-81`). -/
theorem get_header_size_boundary (c : List String) (l : String) (rest : List String)
    (hne : c ≠ []) (hc : ∀ x ∈ c, py_startswith x "#" = true)
    (hl : py_startswith l "#" = false) :
    get_header_size (c ++ l :: rest) = some ((c.length : Int) - 1) ∧
    ((c.length : Int) - 1) + 1 = ((c ++ l :: rest).length - (l :: rest).length : Int) ∧
    (c ++ l :: rest).getD (c.length - 1) "" = c.getLast?.getD "" := by
  refine ⟨?_, ?_, ?_⟩
  · have := header_scan_append "#" c hc l hl rest 0
    rw [get_header_size, this]
    congr 1
    ring
  · rw [List.length_append]
    push_cast
    ring
  · have hlt : c.length - 1 < c.length := by
      have : 0 < c.length := List.length_pos.mpr hne
      omega
    rw [List.getD_append c (l :: rest) "" (c.length - 1) hlt]
    exact getD_eq_getLast?_getD c hne

theorem get_header_size_boundary_witness :
    get_header_size ["# head\n", "# info\n", "# t\tv\n", "0\t1\n"] = some 2 ∧
    ["# head\n", "# info\n", "# t\tv\n", "0\t1\n"].getD 2 "" = "# t\tv\n" := by
  have h := get_header_size_boundary ["# head\n", "# info\n", "# t\tv\n"] "0\t1\n" []
    (by decide) (by decide) (by decide)
  exact ⟨h.1, h.2.2⟩

/-- C5.  The claim says a data row is retained exactly when its 1-based
offset beyond the header row is divisible by `use_nth`, independently of
the header size.  With the header row at file line 1 and `use_nth = 2`,
the data row at file line 3 has offset 2 — divisible — yet the code skips
it, while the row at line 2 has offset 1 — not divisible — yet the code
retains it. -/
theorem dat_skiprows_offset_cex :
    dat_skiprows (some 2) 1 3 = true ∧ ((3 : Int) - 1).fmod 2 = 0 ∧
    dat_skiprows (some 2) 1 2 = false ∧ ((2 : Int) - 1).fmod 2 ≠ 0 := by
  decide

/-- C5 amended: for `use_nth ≥ 2`, `load_dat` retains exactly the data
rows whose absolute 0-based line number in the file is divisible by
`use_nth`; retention therefore depends on how many header lines precede
the data (it matches the claimed offset rule only when `use_nth` divides
the header-row index). -/
theorem dat_skiprows_absolute (nth h : Int) (n : Nat)
    (hnth : 2 ≤ nth) (hn : h < (n : Int)) :
    dat_skiprows (some nth) h n = false ↔ (n : Int).fmod nth = 0 := by
  rw [dat_skiprows, if_pos hnth]
  by_cases hf : (n : Int).fmod nth = 0
  · simp [hf]
  · simp [hf, hn]

theorem dat_skiprows_absolute_witness :
    dat_skiprows (some 2) 1 4 = false :=
  (dat_skiprows_absolute 2 1 4 (by decide) (by decide)).mpr (by decide)

/-- C10.  A directory containing no `.dat` file at all yields an empty
name set, which is not a singleton, so `load_dat` raises the same
`ValueError` as for differing file names instead of returning an empty
table (shown here beside a differing-names directory producing the same
error). -/
theorem load_dat_dir_no_files :
    load_dat_dir ([] : List (FPath × List Nat)) = .error .heterogeneousDirectory ∧
    load_dat_dir [(["0", "forces.dat"], [(1 : Nat)]), (["0", "moments.dat"], [2])] =
      .error .heterogeneousDirectory ∧
    load_dat_dir ([] : List (FPath × List Nat)) ≠ .ok [] := by
  decide

/-- C8.  The claim says `count_columns` always returns the number of
separator occurrences in the selected line plus one.  For a file whose
last line carries no trailing newline (here the single line `a<TAB>b`),
`line.count('\n')` is 0 and the function returns just the separator
count. -/
theorem count_columns_cex :
    count_columns ["a\tb"] '\t' 1 = 1 ∧
    pyCountChar (getline ["a\tb"] 1) '\t' + 1 = 2 ∧
    count_columns ["a\tb"] '\t' 1 ≠ pyCountChar (getline ["a\tb"] 1) '\t' + 1 := by
  decide

/-- C8 amended: `count_columns` returns the separator count plus the
newline count of the selected line.  That equals separator occurrences
plus one exactly when the line ends with a newline; the final line of a
file with no trailing newline yields just the separator count, and an
out-of-range `line_no` yields 0. -/
theorem count_columns_spec :
    (∀ (fl : List String) (n : Nat) (s : String) (sep : Char),
      getline fl n = s ++ "\n" → sep ≠ '\n' → '\n' ∉ s.data →
      count_columns fl sep n = pyCountChar s sep + 1) ∧
    (∀ (fl : List String) (n : Nat) (s : String) (sep : Char),
      getline fl n = s → '\n' ∉ s.data →
      count_columns fl sep n = pyCountChar s sep) ∧
    (∀ (fl : List String) (sep : Char) (n : Nat), fl.length < n →
      count_columns fl sep n = 0) := by
  refine ⟨?_, ?_, ?_⟩
  · intro fl n s sep hget hsep hs
    rw [count_columns, hget, pyCountChar_append, pyCountChar_append]
    have hnl : ("\n" : String).data = ['\n'] := rfl
    have h1 : pyCountChar "\n" sep = 0 := by
      refine pyCountChar_eq_zero _ _ ?_
      rw [hnl]
      simp [hsep]
    have h2 : pyCountChar "\n" '\n' = 1 := by decide
    have h3 : pyCountChar s '\n' = 0 := pyCountChar_eq_zero s '\n' hs
    omega
  · intro fl n s sep hget hs
    rw [count_columns, hget, pyCountChar_eq_zero s '\n' hs]
    rfl
  · intro fl sep n h
    rw [count_columns, getline, if_neg (by omega)]
    rfl

theorem count_columns_spec_witness :
    count_columns ["a\tb\tc\n"] '\t' 1 = pyCountChar "a\tb\tc" '\t' + 1 :=
  count_columns_spec.1 ["a\tb\tc\n"] 1 "a\tb\tc" '\t' (by decide) (by decide) (by decide)

/-- C4.  The claim says a tuple column with cells of differing widths
makes the loader signal an `InconsistentComponentCountError`.  On the
concrete cells `(1)` and `(1 2)` the code instead fails with numpy's
generic ragged-array `ValueError`, which is not that error. -/
theorem unnest_ragged_cex :
    unnest_column "f" [[1], [1, 2]] = .error .valueErrorRagged ∧
    unnest_column "f" [[1], [1, 2]] ≠ .error .inconsistentComponentCount := by
  decide

/-- C4 amended: a tuple-valued column whose cells have differing widths
makes `unnest_columns` fail with the generic ragged-array `ValueError`
raised by `np.array`; no dedicated `InconsistentComponentCountError` is
signalled. -/
theorem unnest_ragged (key : String) (cells : List (List ℚ)) (c₁ c₂ : List ℚ)
    (h₁ : c₁ ∈ cells) (h₂ : c₂ ∈ cells) (hw : c₁.length ≠ c₂.length) :
    unnest_column key cells = .error .valueErrorRagged := by
  cases cells with
  | nil => exact absurd h₁ (List.not_mem_nil c₁)
  | cons c rest =>
    have hall : ¬ (rest.all (fun r => decide (r.length = c.length)) = true) := by
      intro hall
      have hmem : ∀ x ∈ c :: rest, x.length = c.length := by
        intro x hx
        rcases List.mem_cons.mp hx with h | h
        · rw [h]
        · exact of_decide_eq_true (List.all_eq_true.mp hall x h)
      exact hw ((hmem c₁ h₁).trans (hmem c₂ h₂).symm)
    rw [unnest_column, np_array_2d, if_neg hall]

theorem unnest_ragged_witness :
    unnest_column "U" [[1, 2, 3], [4, 5]] = .error .valueErrorRagged :=
  unnest_ragged "U" [[1, 2, 3], [4, 5]] [1, 2, 3] [4, 5] (by simp) (by simp) (by decide)

/-- C6.  For a tuple column of uniform width `W` (cells already parsed to
their `W` float components), the expansion succeeds, produces exactly the
columns named `key.0 … key.(W-1)` in component order, and re-zipping the
produced columns at each row position reconstructs the original tuple
exactly. -/
theorem unnest_uniform_roundtrip (key : String) (cells : List (List ℚ)) (W : Nat)
    (hne : cells ≠ []) (hW : ∀ c ∈ cells, c.length = W) :
    ∃ cols, unnest_column key cells = .ok cols ∧
      cols.map Prod.fst = (List.range W).map (fun j => key ++ "." ++ toString j) ∧
      ∀ i (hi : i < cells.length),
        cols.map (fun col => col.2.getD i 0) = cells.get ⟨i, hi⟩ := by
  cases cells with
  | nil => exact absurd rfl hne
  | cons c rest =>
    have hc : c.length = W := hW c (List.mem_cons_self c rest)
    have hall : rest.all (fun r => decide (r.length = c.length)) = true := by
      rw [List.all_eq_true]
      intro x hx
      exact decide_eq_true (by rw [hW x (List.mem_cons_of_mem c hx), hc])
    refine ⟨(List.range c.length).map (fun j =>
      (key ++ "." ++ toString j, (c :: rest).map (fun row => row.getD j 0))), ?_, ?_, ?_⟩
    · rw [unnest_column, np_array_2d, if_pos hall]
      rfl
    · rw [List.map_map, hc]
      rfl
    · intro i hi
      rw [List.map_map]
      have hfun : ((fun col : String × List ℚ => col.2.getD i 0) ∘ (fun j =>
          (key ++ "." ++ toString j, (c :: rest).map (fun row => row.getD j 0)))) =
          fun j => ((c :: rest).get ⟨i, hi⟩).getD j 0 := by
        funext j
        show ((c :: rest).map (fun row => row.getD j 0)).getD i 0 =
          ((c :: rest).get ⟨i, hi⟩).getD j 0
        rw [List.getD_eq_getElem _ _ (by simpa using hi), List.getElem_map]
        rfl
      rw [hfun]
      have hrow : ((c :: rest).get ⟨i, hi⟩).length = c.length := by
        rw [hW _ (List.get_mem _ _ _), hc]
      rw [← hrow]
      exact range_map_getD _

theorem unnest_uniform_roundtrip_witness :
    ∃ cols, unnest_column "f" [[(1 : ℚ), 2], [3, 4]] = .ok cols ∧
      cols.map Prod.fst = (List.range 2).map (fun j => "f" ++ "." ++ toString j) ∧
      ∀ i (hi : i < ([[(1 : ℚ), 2], [3, 4]] : List (List ℚ)).length),
        cols.map (fun col => col.2.getD i 0) =
          ([[(1 : ℚ), 2], [3, 4]] : List (List ℚ)).get ⟨i, hi⟩ :=
  unnest_uniform_roundtrip "f" [[1, 2], [3, 4]] 2 (by simp) (by decide)

/-- C9.  Loading a directory: when the `.dat` files do not all share one
file name the code raises its heterogeneous-directory `ValueError`; when
loading succeeds, the result is exactly the concatenation of the per-file
rows over the paths in ascending order — each file's rows kept intact and
in file order, with no deduplication or re-indexing — so its row count is
the sum of the per-file row counts. -/
theorem load_dat_dir_merge {α : Type} (files : List (FPath × List α)) :
    ((files.map (fun f => path_name f.1)).dedup.length ≠ 1 →
      load_dat_dir files = .error .heterogeneousDirectory) ∧
    (∀ rows, load_dat_dir files = .ok rows →
      rows = ((List.insertionSort (fun f g => pathLe f.1 g.1 = true) files).map
        (fun f => f.2)).flatten ∧
      rows.length = (files.map (fun f => f.2.length)).sum) := by
  constructor
  · intro h
    rw [load_dat_dir, if_neg h]
  · intro rows hrows
    rw [load_dat_dir] at hrows
    by_cases h : (files.map (fun f => path_name f.1)).dedup.length = 1
    · rw [if_pos h] at hrows
      cases hrows
      refine ⟨rfl, ?_⟩
      rw [List.length_flatten, List.map_map]
      exact List.Perm.sum_eq (List.Perm.map _
        (List.perm_insertionSort (fun f g => pathLe f.1 g.1 = true) files))
    · rw [if_neg h] at hrows
      exact absurd hrows (by simp)

/-- C1.  The claim says a single-token stem with 4 observed columns falls
through to `pos = 0` and yields the names `U.0 … U.3`.  It does not: the
step-1 test computes `(4 - 1) % len([])`, a modulo by zero, so `load_xy`
dies with a `ZeroDivisionError` before any name is built. -/
theorem load_xy_single_token_cex :
    load_xy_names "U" 4 = .error .zeroDivision ∧
    load_xy_names "U" 4 ≠ .ok ["U.0", "U.1", "U.2", "U.3"] := by
  decide

/-- C1 amended: for a `.xy` file whose stem splits into a single token,
the step-1 divisibility test divides by `len(field_names[1:]) = 0`, so
name inference raises `ZeroDivisionError` for every column count instead
of assigning any names. -/
theorem load_xy_single_token (stem : String) (cc : Int)
    (h : (py_split '_' stem).length = 1) :
    load_xy_names stem cc = .error .zeroDivision := by
  obtain ⟨a, ha⟩ := List.length_eq_one.mp h
  rw [load_xy_names, ha]
  rfl

theorem load_xy_single_token_witness :
    load_xy_names "U" 4 = .error .zeroDivision ∧ load_xy_names "p" 2 = .error .zeroDivision :=
  ⟨load_xy_single_token "U" 4 (by decide), load_xy_single_token "p" 2 (by decide)⟩

/-- C2.  The claim says that whenever `(column_count - pos)` is not
evenly divisible by the number of tokens from `pos` on, name inference
signals a `NameInferenceError`.  No such error exists in the code: on the
concrete stem `a_b_c_d_e` with 6 columns the chosen `pos` is 0,
`6` is not divisible by `5`, and the call fails with the `TypeError`
raised by `range(1.2)` instead. -/
theorem xy_nondivisible_cex :
    infer_pos (py_split '_' "a_b_c_d_e") 6 = .ok 0 ∧
    (((py_split '_' "a_b_c_d_e").drop 0).length : Int) = 5 ∧
    ¬ ((5 : Int) ∣ 6) ∧
    load_xy_names "a_b_c_d_e" 6 = .error .typeError ∧
    load_xy_names "a_b_c_d_e" 6 ≠ .error .nameInference := by
  decide

/-- C2 amended: whenever the chosen `pos` leaves `(column_count - pos)`
not evenly divisible by the number of tokens from `pos` on, name
inference never signals a `NameInferenceError`: the fractional
`components_count` either exceeds 1 — and the first expanded token dies
with the `TypeError` of `range()` on a `float` — or is below 1, in which
case every token maps to itself and the returned name list's length
differs from the column count. -/
theorem xy_nondivisible_no_inference_error (stem : String) (cc : Int) (pos : Nat)
    (hp : infer_pos (py_split '_' stem) cc = .ok pos)
    (hnd : ¬ ((((py_split '_' stem).drop pos).length : Int) ∣ (cc - (pos : Int)))) :
    load_xy_names stem cc = .error .typeError ∨
    ∃ ns, load_xy_names stem cc = .ok ns ∧ (ns.length : Int) ≠ cc := by
  have h := infer_names_nondvd (py_split '_' stem) cc pos hp hnd
  rw [load_xy_names]
  exact h

theorem xy_nondivisible_no_inference_error_witness :
    load_xy_names "a_b_c_d_e" 6 = .error .typeError ∨
    ∃ ns, load_xy_names "a_b_c_d_e" 6 = .ok ns ∧ (ns.length : Int) ≠ 6 :=
  xy_nondivisible_no_inference_error "a_b_c_d_e" 6 0 (by decide) (by decide)

theorem load_dat_dir_merge_witness :
    load_dat_dir [(["100", "forces.dat"], [1, 2]), (["0", "forces.dat"], [3])] =
      .ok [3, 1, 2] ∧
    ([3, 1, 2] : List Nat).length =
      ([(["100", "forces.dat"], [(1 : Nat), 2]), (["0", "forces.dat"], [3])].map
        (fun f => f.2.length)).sum := by
  refine ⟨by decide, ?_⟩
  exact ((load_dat_dir_merge
    [(["100", "forces.dat"], [1, 2]), (["0", "forces.dat"], [3])]).2
    [3, 1, 2] (by decide)).2

end Foam2py
